import Mathlib

/-! Verification development for the UWExploration AUV localization system.

The repository contains the process wrapper `auv_motion_simple_node.cpp`
and the launch description for the `auv_pf` particle-filter node.  We give
a shallow embedding of the wrapper's `main`, of the launch description,
and of the estimation core (particle filter, noise model, pose utilities)
described by the specification, and prove the stated properties. -/

namespace UW

/-- Callback methods of `AUVMotionModel` that the wrapper registers on
periodic timers (`auv_motion_simple_node.cpp`, lines 17-18). -/
inductive Callback
  | updateMotion
  | updateMeas
  deriving DecidableEq

/-- The ROS parameter server visible to the node: a partial map from
parameter names to (numeric) values. -/
abbrev Cfg : Type := String → Option ℚ

/-- Shallow embedding of `nh.param<double>(name, var, default)`: look the
name up, fall back to the default when the parameter is absent. -/
def rosParam (cfg : Cfg) (name : String) (dflt : ℚ) : ℚ :=
  (cfg name).getD dflt

/-- The observable actions of the wrapper's `main`, in program order:
parameter reads, allocation of the single `AUVMotionModel` (identified by
an allocation id), the `init()` call, timer creation (recording the
period, the registered member callback and the target instance), and the
final `ros::spin()`. -/
inductive MainEvent
  | getParam (name : String) (dflt value : ℚ)
  | newMotionModel (id : Nat)
  | initCall (id : Nat)
  | createTimer (period : ℚ) (cb : Callback) (target : Nat)
  | spin
  deriving DecidableEq

/-- Shallow embedding of `main` of `auv_motion_simple_node.cpp` as the
ordered trace of its actions: read `odom_rate` and `meas_rate` (both
defaulting to 1), allocate the motion model (id 0), call `init()` on it,
create the `updateMotion` timer with period `odom_rate`, create the
`updateMeas` timer with period `meas_rate`, then spin. -/
def mainTrace (cfg : Cfg) : List MainEvent :=
  [ .getParam "odom_rate" 1 (rosParam cfg "odom_rate" 1),
    .getParam "meas_rate" 1 (rosParam cfg "meas_rate" 1),
    .newMotionModel 0,
    .initCall 0,
    .createTimer (rosParam cfg "odom_rate" 1) .updateMotion 0,
    .createTimer (rosParam cfg "meas_rate" 1) .updateMeas 0,
    .spin ]

/-- State machine of the `AUVMotionModel` (spec 4.4): `init()` moves it
from `uninitialized` to `running`; no event moves it back. -/
inductive MMState
  | uninitialized
  | running
  deriving DecidableEq

/-- A registered periodic timer: its period, callback and target
instance. -/
structure SimTimer where
  period : ℚ
  cb : Callback
  target : Nat
  deriving DecidableEq

/-- State accumulated while `main` executes: the motion model's state and
the timers registered so far.  Timer callbacks can only be invoked (by
the runtime, during or after `spin`) once their timer has been created,
so the motion-model state at any point where a timer exists bounds the
state any callback invocation can observe. -/
structure SetupState where
  mm : MMState
  timers : List SimTimer
  deriving DecidableEq

/-- Effect of one `main` action on the setup state. -/
def stepSetup (s : SetupState) : MainEvent → SetupState
  | .initCall _ => { s with mm := .running }
  | .createTimer p cb t => { s with timers := s.timers ++ [⟨p, cb, t⟩] }
  | _ => s

/-- Run a trace of `main` actions from the initial (uninitialized,
timer-free) state. -/
def runSetup (tr : List MainEvent) : SetupState :=
  tr.foldl stepSetup ⟨.uninitialized, []⟩

/-- Recognizer for the `init()` call event. -/
def isInitEvent : MainEvent → Bool
  | .initCall _ => true
  | _ => false

/-- Recognizer for timer-creation events. -/
def isTimerEvent : MainEvent → Bool
  | .createTimer _ _ _ => true
  | _ => false

/-- Recognizer for motion-model allocation events. -/
def isNewModelEvent : MainEvent → Bool
  | .newMotionModel _ => true
  | _ => false

/-- C1: the wrapper calls `AUVMotionModel::init()` exactly once, and in
every prefix of `main`'s trace in which some timer has already been
created the motion model is already `running`; since an update callback
can only fire after its timer exists, no callback can ever observe the
`uninitialized` state. -/
theorem main_init_before_timers (cfg : Cfg) :
    ((mainTrace cfg).countP isInitEvent = 1) ∧
    (∀ n : Nat, ((mainTrace cfg).take n).any isTimerEvent = true →
      (runSetup ((mainTrace cfg).take n)).mm = MMState.running) := by
  constructor
  · simp [mainTrace, isInitEvent]
  · intro n h
    rcases n with _|_|_|_|_|_|_|n
    all_goals simp_all [mainTrace, runSetup, stepSetup, isTimerEvent]

/-- Witness for C1 at the empty configuration and the full trace. -/
theorem main_init_before_timers_witness :
    (((mainTrace (fun _ => none)).take 7).any isTimerEvent = true) ∧
    (runSetup ((mainTrace (fun _ => none)).take 7)).mm = MMState.running :=
  ⟨by decide, (main_init_before_timers (fun _ => none)).2 7 (by decide)⟩

/-- C2: `main` registers exactly two timers on the single motion-model
instance (allocation id 0): `updateMotion` with period `odom_rate` and
`updateMeas` with period `meas_rate`, each read independently from the
configuration; on the empty configuration both periods default to 1. -/
theorem main_timer_periods (cfg : Cfg) :
    (runSetup (mainTrace cfg)).timers =
      [⟨rosParam cfg "odom_rate" 1, Callback.updateMotion, 0⟩,
       ⟨rosParam cfg "meas_rate" 1, Callback.updateMeas, 0⟩] ∧
    (mainTrace cfg).countP isNewModelEvent = 1 ∧
    (runSetup (mainTrace (fun _ => none))).timers =
      [⟨1, Callback.updateMotion, 0⟩, ⟨1, Callback.updateMeas, 0⟩] := by
  refine ⟨?_, ?_, ?_⟩ <;>
    simp [mainTrace, runSetup, stepSetup, isNewModelEvent, rosParam]

/-! Particle-filter weight update and resampling.  The `auv_pf.py` node
named by the launch description is not part of the repository sources;
the following definitions are modelled from the specification (4.5). -/

/-- Modelled from the spec: the rigid-body state (spec 3): position and
orientation, the angles kept wrapped to `(-π, π]`. -/
structure Pose where
  x : ℝ
  y : ℝ
  z : ℝ
  roll : ℝ
  pitch : ℝ
  yaw : ℝ

instance : Inhabited Pose := ⟨⟨0, 0, 0, 0, 0, 0⟩⟩

/-- Modelled from the spec: the weight step of `ParticleFilter.update`
(spec 4.5); the likelihood of each particle (the combined per-beam
Gaussian score of its simulated ping against the real ping) is taken as
input.  Each prior weight is multiplied by its likelihood; if the sum of
the unnormalized weights is zero the weights are reset to the uniform
value `1/particleCount`, otherwise they are divided by the sum. -/
def updateWeights (prior lik : List ℚ) : List ℚ :=
  let w := List.zipWith (fun a b => a * b) prior lik
  let s := w.sum
  if s = 0 then List.replicate prior.length (1 / (prior.length : ℚ))
  else w.map (fun a => a / s)

/-- State machine of the particle filter (spec 4.5). -/
inductive PFState
  | initializing
  | ready
  deriving DecidableEq

/-- Errors the filter can signal (spec 7). -/
inductive PFError
  | preconditionViolation
  deriving DecidableEq

/-- Modelled from the spec: `ParticleFilter.update` surfaced at the state
machine level.  Calling it before `initialize` is a precondition
violation (spec 7a); in the `ready` state it performs the weight step and
returns normally. -/
def pfUpdate (st : PFState) (prior lik : List ℚ) :
    Except PFError (List ℚ) :=
  match st with
  | .initializing => .error .preconditionViolation
  | .ready => .ok (updateWeights prior lik)

/-- Modelled from the spec: effective sample size `1 / Σ weight²`
(spec 4.5, glossary). -/
def essOf (ws : List ℚ) : ℚ :=
  1 / (ws.map (fun w => w * w)).sum

/-- Cumulative weight sequence used by systematic resampling. -/
def cumWeights (ws : List ℚ) : List ℚ :=
  (List.range ws.length).map (fun k => (ws.take (k + 1)).sum)

/-- Modelled from the spec: systematic resampling (spec 4.5).  With one
random offset `u` in `[0,1)`, draw `particleCount` ordered points spaced
by `1/particleCount`, walk the cumulative-weight sequence to select the
particle index for each point, and reset all weights to uniform. -/
def systematicResample {α : Type} [Inhabited α]
    (ps : List (α × ℚ)) (u : ℚ) : List (α × ℚ) :=
  let n := ps.length
  let cum := cumWeights (ps.map (fun p => p.2))
  (List.range n).map (fun (k : ℕ) =>
    let target := ((k : ℚ) + u) / (n : ℚ)
    let idx := cum.findIdx (fun c => decide (target ≤ c))
    ((ps.getD idx default).1, 1 / (n : ℚ)))

/-- Modelled from the spec: `maybeResample` (spec 4.5): resample
systematically when the effective sample size falls below
`particleCount / 2`, otherwise leave the population unchanged. -/
def maybeResample {α : Type} [Inhabited α]
    (ps : List (α × ℚ)) (u : ℚ) : List (α × ℚ) :=
  if essOf (ps.map (fun p => p.2)) < (ps.length : ℚ) / 2 then
    systematicResample ps u
  else ps

/-- Dividing every element of a list by a constant divides the sum. -/
theorem sum_map_div (l : List ℚ) (s : ℚ) :
    (l.map (fun a => a / s)).sum = l.sum / s := by
  induction l with
  | nil => simp
  | cons a l ih => simp [ih, add_div]

/-- Summing a constant over a list of naturals gives length times the
constant. -/
theorem sum_map_const_nat (l : List ℕ) (c : ℚ) :
    (l.map (fun _ => c)).sum = (l.length : ℚ) * c := by
  induction l with
  | nil => simp
  | cons a l ih =>
      simp only [List.map_cons, List.sum_cons, ih, List.length_cons]
      push_cast
      ring

/-- C3: an `update` call in the `ready` state whose unnormalized weights
sum to zero returns normally (no error) with every weight reset to the
uniform value `1/particleCount`. -/
theorem update_zero_weight_sum_uniform (prior lik : List ℚ)
    (h : (List.zipWith (fun a b => a * b) prior lik).sum = 0) :
    pfUpdate PFState.ready prior lik =
      Except.ok (List.replicate prior.length (1 / (prior.length : ℚ))) := by
  simp [pfUpdate, updateWeights, h]

/-- Witness for C3: two particles whose likelihoods are both zero. -/
theorem update_zero_weight_sum_uniform_witness :
    (List.zipWith (fun a b => a * b) [(1 : ℚ), 1] [(0 : ℚ), 0]).sum = 0 ∧
    pfUpdate PFState.ready [(1 : ℚ), 1] [(0 : ℚ), 0] =
      Except.ok (List.replicate ([(1 : ℚ), 1]).length
        (1 / (([(1 : ℚ), 1]).length : ℚ))) :=
  ⟨by simp, update_zero_weight_sum_uniform [1, 1] [0, 0] (by simp)⟩

/-- C4: after an `update` on a population in which at least one particle
has nonzero likelihood, the weights sum to exactly 1; and `maybeResample`
preserves this normalization. -/
theorem update_weights_normalized :
    (∀ prior lik : List ℚ, prior.length = lik.length →
      (∃ x ∈ lik, x ≠ 0) →
      (updateWeights prior lik).sum = 1) ∧
    (∀ (ps : List (Pose × ℚ)) (u : ℚ), 0 < ps.length →
      (ps.map (fun p => p.2)).sum = 1 →
      ((maybeResample ps u).map (fun p => p.2)).sum = 1) := by
  constructor
  · intro prior lik hlen ⟨xval, hmem, _⟩
    have hpos : 0 < prior.length := by
      rw [hlen]
      exact List.length_pos.mpr (List.ne_nil_of_mem hmem)
    unfold updateWeights
    by_cases hs : (List.zipWith (fun a b => a * b) prior lik).sum = 0
    · rw [if_pos hs]
      rw [List.sum_replicate, nsmul_eq_mul]
      rw [mul_one_div, div_self]
      exact_mod_cast hpos.ne'
    · rw [if_neg hs, sum_map_div, div_self hs]
  · intro ps u hn hs
    unfold maybeResample
    by_cases hr :
        essOf (ps.map (fun p => p.2)) < (ps.length : ℚ) / 2
    · rw [if_pos hr]
      unfold systematicResample
      rw [List.map_map]
      show ((List.range ps.length).map
          (fun _ : ℕ => 1 / (ps.length : ℚ))).sum = 1
      rw [sum_map_const_nat, List.length_range, mul_one_div, div_self]
      exact_mod_cast hn.ne'
    · rw [if_neg hr]
      exact hs

/-- Witness for C4: a two-particle update with one nonzero likelihood,
and a `maybeResample` on a normalized singleton population. -/
theorem update_weights_normalized_witness :
    (updateWeights [(1 : ℚ), 1] [(2 : ℚ), 0]).sum = 1 ∧
    ((maybeResample [((default : Pose), (1 : ℚ))] 0).map
      (fun p => p.2)).sum = 1 :=
  ⟨update_weights_normalized.1 [1, 1] [2, 0] rfl ⟨2, by simp, by norm_num⟩,
   update_weights_normalized.2 [(default, 1)] 0 (by simp) (by simp)⟩

/-! Noise model and pose composition (spec 3, 4.1), modelled from the
spec since the `auv_pf.py` / `AUVMotionModel` implementations are not
among the repository sources. -/

/-- Wrap an angle to the interval `(-π, π]` (spec 3). -/
noncomputable def wrapAngle (θ : ℝ) : ℝ :=
  θ - 2 * Real.pi * (⌈(θ - Real.pi) / (2 * Real.pi)⌉ : ℤ)

/-- The orientation invariant of spec 3: all three angles lie in
`(-π, π]`. -/
def poseNormalized (p : Pose) : Prop :=
  (-Real.pi < p.roll ∧ p.roll ≤ Real.pi) ∧
  (-Real.pi < p.pitch ∧ p.pitch ≤ Real.pi) ∧
  (-Real.pi < p.yaw ∧ p.yaw ≤ Real.pi)

/-- Modelled from the spec: `NoiseModel.sample` (spec 4.1): six
independent standard-normal variates `g i`, each scaled by the square
root of the corresponding diagonal covariance entry, assembled into a
pose delta.  A zero variance on an axis makes that axis of the sample
deterministically zero. -/
noncomputable def noiseSample (g : Fin 6 → ℝ) (cov : List ℝ) : Pose :=
  { x := g 0 * Real.sqrt (cov.getD 0 0),
    y := g 1 * Real.sqrt (cov.getD 1 0),
    z := g 2 * Real.sqrt (cov.getD 2 0),
    roll := g 3 * Real.sqrt (cov.getD 3 0),
    pitch := g 4 * Real.sqrt (cov.getD 4 0),
    yaw := g 5 * Real.sqrt (cov.getD 5 0) }

/-- The all-zero covariance diagonal. -/
def zeroCovariance : List ℝ :=
  [0, 0, 0, 0, 0, 0]

/-- Modelled from the spec: rigid-body composition of a pose with a
body-frame delta (spec 3): the delta's translation is rotated by the
pose's orientation (roll-pitch-yaw rotation matrix, ZYX convention) and
added to the position, and each orientation angle is advanced by the
delta's angle and re-wrapped to `(-π, π]`. -/
noncomputable def compose (p d : Pose) : Pose :=
  let cr := Real.cos p.roll
  let sr := Real.sin p.roll
  let cp := Real.cos p.pitch
  let sp := Real.sin p.pitch
  let cy := Real.cos p.yaw
  let sy := Real.sin p.yaw
  { x := p.x + (cy * cp) * d.x + (cy * sp * sr - sy * cr) * d.y +
      (cy * sp * cr + sy * sr) * d.z,
    y := p.y + (sy * cp) * d.x + (sy * sp * sr + cy * cr) * d.y +
      (sy * sp * cr - cy * sr) * d.z,
    z := p.z + (-sp) * d.x + (cp * sr) * d.y + (cp * cr) * d.z,
    roll := wrapAngle (p.roll + d.roll),
    pitch := wrapAngle (p.pitch + d.pitch),
    yaw := wrapAngle (p.yaw + d.yaw) }

/-- An angle already in `(-π, π]` is unchanged by wrapping. -/
theorem wrapAngle_eq_self {θ : ℝ} (h1 : -Real.pi < θ) (h2 : θ ≤ Real.pi) :
    wrapAngle θ = θ := by
  have hc : (0 : ℝ) < 2 * Real.pi := by positivity
  have hz : ⌈(θ - Real.pi) / (2 * Real.pi)⌉ = 0 := by
    rw [Int.ceil_eq_zero_iff, Set.mem_Ioc]
    constructor
    · rw [lt_div_iff₀ hc]
      linarith
    · rw [div_le_iff₀ hc]
      linarith
  rw [wrapAngle, hz]
  push_cast
  ring

/-- C5: composing a normalized pose with a noise sample drawn from the
all-zero covariance diagonal leaves the pose unchanged: every axis of
the sampled perturbation is deterministically zero. -/
theorem compose_zero_noise (p : Pose) (g : Fin 6 → ℝ)
    (h : poseNormalized p) :
    compose p (noiseSample g zeroCovariance) = p := by
  obtain ⟨⟨hr1, hr2⟩, ⟨hp1, hp2⟩, ⟨hy1, hy2⟩⟩ := h
  have hsample : noiseSample g zeroCovariance =
      { x := 0, y := 0, z := 0, roll := 0, pitch := 0, yaw := 0 } := by
    simp [noiseSample, zeroCovariance]
  rw [hsample]
  simp only [compose]
  cases p with
  | mk x y z roll pitch yaw =>
      simp only [Pose.mk.injEq]
      refine ⟨by ring, by ring, by ring, ?_, ?_, ?_⟩
      · rw [add_zero]; exact wrapAngle_eq_self hr1 hr2
      · rw [add_zero]; exact wrapAngle_eq_self hp1 hp2
      · rw [add_zero]; exact wrapAngle_eq_self hy1 hy2

/-- The origin pose, used as a concrete instance. -/
def originPose : Pose :=
  { x := 0, y := 0, z := 0, roll := 0, pitch := 0, yaw := 0 }

/-- Witness for C5 at the origin pose and unit variates. -/
theorem compose_zero_noise_witness :
    poseNormalized originPose ∧
    compose originPose (noiseSample (fun _ => 1) zeroCovariance) =
      originPose := by
  have hpi := Real.pi_pos
  have hnorm : poseNormalized originPose :=
    ⟨⟨by simpa [originPose] using hpi, by simpa [originPose] using hpi.le⟩,
     ⟨by simpa [originPose] using hpi, by simpa [originPose] using hpi.le⟩,
     ⟨by simpa [originPose] using hpi, by simpa [originPose] using hpi.le⟩⟩
  exact ⟨hnorm, compose_zero_noise _ (fun _ => 1) hnorm⟩

open Classical

/-- Two-argument arctangent: the angle of the point `(x, y)` in
`(-π, π]`, with the usual quadrant corrections. -/
noncomputable def atan2 (yc xc : ℝ) : ℝ :=
  if 0 < xc then Real.arctan (yc / xc)
  else if xc < 0 ∧ 0 ≤ yc then Real.arctan (yc / xc) + Real.pi
  else if xc < 0 ∧ yc < 0 then Real.arctan (yc / xc) - Real.pi
  else if xc = 0 ∧ 0 < yc then Real.pi / 2
  else if xc = 0 ∧ yc < 0 then -(Real.pi / 2)
  else 0

/-- Modelled from the spec: `ParticleFilter.estimate` (spec 4.5): the
weighted mean pose of a population whose weights are normalized —
arithmetic (weighted) mean for `x`/`y`/`z`, and for each angle the
weighted circular mean: the `atan2` of the weight-summed sines and
cosines. -/
noncomputable def estimate (ps : List (Pose × ℝ)) : Pose :=
  { x := (ps.map (fun q => q.2 * q.1.x)).sum,
    y := (ps.map (fun q => q.2 * q.1.y)).sum,
    z := (ps.map (fun q => q.2 * q.1.z)).sum,
    roll := atan2 ((ps.map (fun q => q.2 * Real.sin q.1.roll)).sum)
      ((ps.map (fun q => q.2 * Real.cos q.1.roll)).sum),
    pitch := atan2 ((ps.map (fun q => q.2 * Real.sin q.1.pitch)).sum)
      ((ps.map (fun q => q.2 * Real.cos q.1.pitch)).sum),
    yaw := atan2 ((ps.map (fun q => q.2 * Real.sin q.1.yaw)).sum)
      ((ps.map (fun q => q.2 * Real.cos q.1.yaw)).sum) }

/-- On the negative x-axis, `atan2` returns `π`. -/
theorem atan2_zero_neg {xc : ℝ} (hx : xc < 0) : atan2 0 xc = Real.pi := by
  unfold atan2
  rw [if_neg (by linarith), if_pos ⟨hx, le_refl 0⟩, zero_div,
    Real.arctan_zero, zero_add]

/-- The two-particle population of C6: equal weights `1/2`, yaw angles
`π - ε` and `-π + ε`. -/
noncomputable def wrapPopulation (ε : ℝ) : List (Pose × ℝ) :=
  [({ originPose with yaw := Real.pi - ε }, 1 / 2),
   ({ originPose with yaw := -Real.pi + ε }, 1 / 2)]

/-- C6: the weighted circular mean of `estimate` handles wrap-around: on
two equally weighted particles with yaw `π - ε` and `-π + ε` the
estimated yaw is `π` (its `(-π, π]` representative), not the naive linear
average `0`. -/
theorem estimate_circular_mean_wrap (ε : ℝ) (h1 : 0 < ε)
    (h2 : ε < Real.pi / 2) :
    (estimate (wrapPopulation ε)).yaw = Real.pi ∧ Real.pi ≠ 0 := by
  have hcos : 0 < Real.cos ε :=
    Real.cos_pos_of_mem_Ioo ⟨by linarith [Real.pi_pos], h2⟩
  have hsin : (1 / 2) * Real.sin (Real.pi - ε) +
      ((1 / 2) * Real.sin (-Real.pi + ε) + 0) = 0 := by
    rw [Real.sin_pi_sub, show -Real.pi + ε = ε - Real.pi by ring,
      Real.sin_sub, Real.cos_pi, Real.sin_pi]
    ring
  have hcossum : (1 / 2) * Real.cos (Real.pi - ε) +
      ((1 / 2) * Real.cos (-Real.pi + ε) + 0) = -Real.cos ε := by
    rw [Real.cos_pi_sub, show -Real.pi + ε = ε - Real.pi by ring,
      Real.cos_sub, Real.cos_pi, Real.sin_pi]
    ring
  constructor
  · show atan2 _ _ = Real.pi
    simp only [wrapPopulation, List.map_cons, List.map_nil,
      List.sum_cons, List.sum_nil]
    rw [hsin, hcossum]
    exact atan2_zero_neg (by linarith)
  · exact Real.pi_ne_zero

/-- Witness for C6 at `ε = 1`. -/
theorem estimate_circular_mean_wrap_witness :
    (0 : ℝ) < 1 ∧ (1 : ℝ) < Real.pi / 2 ∧
    ((estimate (wrapPopulation 1)).yaw = Real.pi ∧ Real.pi ≠ 0) := by
  have h2 : (1 : ℝ) < Real.pi / 2 := by linarith [Real.pi_gt_three]
  exact ⟨by norm_num, h2, estimate_circular_mean_wrap 1 (by norm_num) h2⟩

/-! The launch description (`src/unnamed/part_000`): arguments with
defaults, and the `auv_pf` node in its quiet and debug variants. -/

/-- A launch `arg`: its name and its default value, kept as the literal
string of the XML (topic defaults contain `$(arg ...)` substitutions). -/
structure LaunchArg where
  argName : String
  dflt : String
  deriving DecidableEq

/-- The `arg` declarations of the launch description, in file order. -/
def launchArgs : List LaunchArg :=
  [⟨"mode", "sim"⟩,
   ⟨"debug_mode", "True"⟩,
   ⟨"filter", "pf"⟩,
   ⟨"particle_count", "1"⟩,
   ⟨"init_covariance", "[0, 0, 0.0, 0.0, 0.0, 0.0]"⟩,
   ⟨"motion_covariance", "[0, 0, 0.0, 0.0, 0.0, 0.00]"⟩,
   ⟨"measurement_covariance", "0.1"⟩,
   ⟨"map_frame", "map"⟩,
   ⟨"odom_frame", "odom"⟩,
   ⟨"odometry_topic", "/$(arg mode)/odom"⟩,
   ⟨"mbes_pings_topic", "/$(arg mode)/mbes_pings"⟩,
   ⟨"average_pose_topic", "/$(arg filter)/avg_pose"⟩,
   ⟨"particle_poses_topic", "/$(arg filter)/particle_poses"⟩,
   ⟨"particle_sim_mbes_topic", "/$(arg filter)/sim_mbes"⟩,
   ⟨"average_mbes_topic", "/$(arg filter)/avg_mbes"⟩]

/-- A `param` element of a node: the parameter name, the launch argument
its value references (every value is `$(arg ...)`), and the declared XML
type when present. -/
structure NodeParam where
  paramName : String
  argRef : String
  ptype : Option String
  deriving DecidableEq

/-- A `node` element: package, executable, node name, output destination
and parameters. -/
structure LaunchNode where
  pkg : String
  exec : String
  nodeName : String
  output : String
  params : List NodeParam
  deriving DecidableEq

/-- The parameters passed to `auv_pf`, in the file order of the quiet
branch (launch lines 29-41); the debug branch lists the same parameters
(lines 46-58). -/
def auvPfParams : List NodeParam :=
  [⟨"particle_count", "particle_count", some "int"⟩,
   ⟨"init_covariance", "init_covariance", none⟩,
   ⟨"measurement_covariance", "measurement_covariance", none⟩,
   ⟨"motion_covariance", "motion_covariance", none⟩,
   ⟨"map_frame", "map_frame", none⟩,
   ⟨"odom_frame", "odom_frame", none⟩,
   ⟨"odometry_topic", "odometry_topic", none⟩,
   ⟨"mbes_pings_topic", "mbes_pings_topic", none⟩,
   ⟨"average_pose_topic", "average_pose_topic", none⟩,
   ⟨"average_mbes_topic", "average_mbes_topic", none⟩,
   ⟨"particle_poses_topic", "particle_poses_topic", none⟩,
   ⟨"particle_sim_mbes_topic", "particle_sim_mbes_topic", none⟩]

/-- The `auv_pf` node of the quiet branch (`group unless debug_mode`,
output to log). -/
def auvPfQuiet : LaunchNode :=
  ⟨"auv_particle_filter", "auv_pf.py", "auv_pf", "log", auvPfParams⟩

/-- The `auv_pf` node of the debug branch (`group if debug_mode`, output
to screen). -/
def auvPfDebug : LaunchNode :=
  ⟨"auv_particle_filter", "auv_pf.py", "auv_pf", "screen", auvPfParams⟩

/-- Nodes started by the launch description as a function of the
`debug_mode` argument: the quiet group is guarded by
`unless debug_mode`, the debug group by `if debug_mode`. -/
def launchNodes (debug : Bool) : List LaunchNode :=
  (if debug = false then [auvPfQuiet] else []) ++
  (if debug = true then [auvPfDebug] else [])

/-- The configuration options recognized by the system (spec 6). -/
def recognizedOptions : List String :=
  ["particle_count", "init_covariance", "motion_covariance",
   "measurement_covariance", "map_frame", "odom_frame",
   "odometry_topic", "mbes_pings_topic", "average_pose_topic",
   "particle_poses_topic", "particle_sim_mbes_topic",
   "average_mbes_topic"]

/-- C7: the parameters delivered to the `auv_pf` node are, as a multiset,
exactly the recognized options of spec 6 (in both launch branches), and
each of them takes its value from the like-named launch argument, which
exists among the declared arguments. -/
theorem launch_recognized_options :
    ((auvPfQuiet.params.map (fun p => p.paramName) : Multiset String) =
      (recognizedOptions : Multiset String)) ∧
    ((auvPfDebug.params.map (fun p => p.paramName) : Multiset String) =
      (recognizedOptions : Multiset String)) ∧
    (auvPfQuiet.params.all (fun p =>
      p.argRef == p.paramName &&
      (launchArgs.map (fun a => a.argName)).contains p.paramName) = true) ∧
    (auvPfDebug.params.all (fun p =>
      p.argRef == p.paramName &&
      (launchArgs.map (fun a => a.argName)).contains p.paramName) = true) := by
  refine ⟨by decide, by decide, by decide, by decide⟩

/-- The `init_covariance` default `[0, 0, 0.0, 0.0, 0.0, 0.0]` of the
launch description, read as numbers. -/
def initCovarianceDefault : List ℝ :=
  [0, 0, 0, 0, 0, 0]

/-- The `motion_covariance` default `[0, 0, 0.0, 0.0, 0.0, 0.00]` of the
launch description, read as numbers. -/
def motionCovarianceDefault : List ℝ :=
  [0, 0, 0, 0, 0, 0]

/-- C8: in the default launch configuration the z, roll and pitch
variance entries (indices 2, 3, 4) of both covariance diagonals are 0,
so a noise sample drawn from either is deterministically zero on those
axes: the degenerate 2D-only mode of the noise model. -/
theorem launch_default_covariance_2d :
    initCovarianceDefault.getD 2 0 = 0 ∧
    initCovarianceDefault.getD 3 0 = 0 ∧
    initCovarianceDefault.getD 4 0 = 0 ∧
    motionCovarianceDefault.getD 2 0 = 0 ∧
    motionCovarianceDefault.getD 3 0 = 0 ∧
    motionCovarianceDefault.getD 4 0 = 0 ∧
    (∀ g : Fin 6 → ℝ,
      (noiseSample g initCovarianceDefault).z = 0 ∧
      (noiseSample g initCovarianceDefault).roll = 0 ∧
      (noiseSample g initCovarianceDefault).pitch = 0 ∧
      (noiseSample g motionCovarianceDefault).z = 0 ∧
      (noiseSample g motionCovarianceDefault).roll = 0 ∧
      (noiseSample g motionCovarianceDefault).pitch = 0) := by
  refine ⟨rfl, rfl, rfl, rfl, rfl, rfl, fun g => ?_⟩
  simp [noiseSample, initCovarianceDefault, motionCovarianceDefault]

/-- The `particle_count` default of the launch description. -/
def particleCountDefault : ℕ :=
  1

/-- C9: the launch default is a single particle, and with one particle
the weight step always yields weight 1, `maybeResample` leaves the
population unchanged (its effective sample size is already maximal), and
the weighted position average is the particle's own position. -/
theorem launch_default_single_particle :
    particleCountDefault = 1 ∧
    (⟨"particle_count", "1"⟩ : LaunchArg) ∈ launchArgs ∧
    (∀ w l : ℚ, updateWeights [w] [l] = [1]) ∧
    (∀ (p : Pose) (u : ℚ), maybeResample [(p, 1)] u = [(p, 1)]) ∧
    (∀ p : Pose, (estimate [(p, 1)]).x = p.x ∧
      (estimate [(p, 1)]).y = p.y ∧ (estimate [(p, 1)]).z = p.z) := by
  refine ⟨rfl, by decide, ?_, ?_, ?_⟩
  · intro w l
    by_cases h : w * l = 0
    · simp [updateWeights, h]
    · simp [updateWeights, h, div_self h]
  · intro p u
    unfold maybeResample
    rw [if_neg]
    simp [essOf]
    norm_num
  · intro p
    simp [estimate]

/-- C10: for either value of `debug_mode` the launch description starts
exactly one `auv_pf` node; the quiet and debug variants have the same
package, executable, node name and parameters, and differ only in the
output destination (log versus screen). -/
theorem launch_debug_branches_equivalent :
    (∀ b : Bool, (launchNodes b).length = 1) ∧
    launchNodes true = [auvPfDebug] ∧
    launchNodes false = [auvPfQuiet] ∧
    auvPfQuiet.params = auvPfDebug.params ∧
    auvPfQuiet.pkg = auvPfDebug.pkg ∧
    auvPfQuiet.exec = auvPfDebug.exec ∧
    auvPfQuiet.nodeName = auvPfDebug.nodeName ∧
    auvPfQuiet.output = "log" ∧
    auvPfDebug.output = "screen" :=
  ⟨fun b => by cases b <;> rfl, rfl, rfl, rfl, rfl, rfl, rfl, rfl, rfl⟩

end UW
